import Mathlib

/-!
Shallow embedding of `src/dbus-native/src/marshalled.rs`: the D-Bus body
codec (demarshalling readers and marshalling buffers), together with
theorems checking the specification's claims against it.

Modelling conventions:
* `u8` data is `List UInt8`; signature strings are `List Char` (they are
  ASCII); `usize` arithmetic is `Nat`, with the one bitwise operation
  (`align_up`) performed at the 64-bit width it has in the source.
* Fallible Rust code returns `RRes`; a Rust panic (out-of-bounds slice
  indexing, `unwrap` on `None`, the wildcard signature-character arms) is
  the distinguished outcome `RRes.panic`.
* `f64` values are represented by their IEEE-754 bit pattern (a `Nat`);
  the codec never does float arithmetic, it only moves the 8 bytes.
* Recursions that Rust bounds by the validated signature depth are given
  explicit fuel; fuel exhaustion is mapped to `RRes.panic` and every
  theorem supplies ample fuel.
-/

namespace Marshalled

/-- The demarshalling error set (`DemarshalError` in `src/dbus-native/src/types.rs`,
    restricted to the variants `marshalled.rs` uses). -/
inductive DemarshalError where
  | NotEnoughData
  | InvalidString
  | InvalidBoolean
  | NumberTooBig
  | WrongType
  deriving DecidableEq, Repr

/-- Outcome of running a piece of Rust code: success, a recoverable `Err`,
    or a panic. -/
inductive RRes (α : Type) where
  | ok : α → RRes α
  | err : DemarshalError → RRes α
  | panic : RRes α
  deriving DecidableEq, Repr

/-- `cfg(target_endian)`: the host is little-endian. -/
def IS_BIG_ENDIAN : Bool := false

/-- src: `const ARRAY_MAX_LEN: usize = 67108864;` -/
def ARRAY_MAX_LEN : Nat := 67108864

/-- Little-endian value of a byte list. -/
def decodeLE : List UInt8 → Nat
  | [] => 0
  | b :: bs => b.toNat + 256 * decodeLE bs

/-- `uN::from_be_bytes` / `uN::from_le_bytes`, selected by the endianness flag. -/
def decodeBytes (is_big_endian : Bool) (bs : List UInt8) : Nat :=
  if is_big_endian then decodeLE bs.reverse else decodeLE bs

/-- `n`-byte little-endian encoding: `to_ne_bytes` on the little-endian host. -/
def leBytes : Nat → Nat → List UInt8
  | 0, _ => []
  | n + 1, x => UInt8.ofNat (x % 256) :: leBytes n (x / 256)

/-- Reinterpretation `as iN` of a `w`-bit unsigned value (two's complement). -/
def toSigned (w : Nat) (x : Nat) : Int :=
  if x < 2 ^ (w - 1) then (x : Int) else (x : Int) - 2 ^ w

/-- Rust `!x` on a 64-bit `usize`. -/
def usizeNot (x : Nat) : Nat := 2 ^ 64 - 1 - x

/-- src: `pub fn align_up(pos: usize, align: usize) -> usize { (pos + align - 1) & !(align - 1) }`.
    The AND against a mask below `2^64` also truncates the sum to 64 bits,
    which matches release-mode wrapping `usize` addition. -/
def align_up (pos align : Nat) : Nat := (pos + align - 1) &&& usizeNot (align - 1)

/-- src: `align_of`. The wildcard arm panics in Rust; it is unreachable for
    pre-validated signatures, and we give it the junk value 1 so that the
    function stays `Nat`-valued. -/
def align_of (c : Char) : Nat :=
  if c = 'y' ∨ c = 'g' ∨ c = 'v' then 1
  else if c = 'n' ∨ c = 'q' then 2
  else if c = 'i' ∨ c = 'u' ∨ c = 'b' ∨ c = 's' ∨ c = 'o' ∨ c = 'a' ∨ c = 'h' then 4
  else if c = 'x' ∨ c = 't' ∨ c = 'd' ∨ c = '(' ∨ c = '{' then 8
  else 1

/-- src: `align_buf`: extend with zero bytes up to the next multiple of `align`. -/
def align_buf (v : List UInt8) (align : Nat) : List UInt8 :=
  v ++ List.replicate (align_up v.length align - v.length) 0

/-- The signature characters that stand for one complete type by themselves. -/
def basicChars : List Char := ['y', 'n', 'q', 'i', 'u', 'b', 'h', 'x', 't', 'd', 's', 'o', 'g', 'v']

/-- Modelled from the spec: helper for splitting signatures (the external
    `dbus_strings` crate is not under `src/`). Scans a bracketed run up to the
    close bracket that returns the depth (starting at `d`) to zero. -/
def takeBal : Nat → List Char → Option (List Char × List Char)
  | _, [] => none
  | d, c :: rest =>
    let d2 := if c = '(' ∨ c = '{' then d + 1
              else if c = ')' ∨ c = '}' then d - 1
              else d
    if d2 = 0 then some ([c], rest)
    else
      match takeBal d2 rest with
      | some (s, r) => some (c :: s, r)
      | none => none

/-- Modelled from the spec: `SignatureMulti::single()` of the external
    `dbus_strings` crate — "Split the current signature into
    (first_single, rest)" (spec §4.2), per the type alphabet of spec §3. -/
def takeSingle : List Char → Option (List Char × List Char)
  | [] => none
  | c :: rest =>
    if c = 'a' then
      match takeSingle rest with
      | some (s, r) => some ('a' :: s, r)
      | none => none
    else if c = '(' ∨ c = '{' then
      match takeBal 1 rest with
      | some (s, r) => some (c :: s, r)
      | none => none
    else if basicChars.contains c then some ([c], rest)
    else none

/-- The characters allowed as a dict-entry key (a basic, non-container type). -/
def basicKeyChars : List Char := ['y', 'n', 'q', 'i', 'u', 'b', 'h', 'x', 't', 'd', 's', 'o', 'g']

mutual

/-- Modelled from the spec: validity of a single signature, per the D-Bus
    type alphabet of spec §3 (validation lives in the external `dbus_strings`
    crate, not under `src/`). Fuelled; `length + 1` fuel always suffices. -/
def sigSingleCheck : Nat → List Char → Bool
  | 0, _ => false
  | f + 1, s =>
    match s with
    | [c] => basicChars.contains c
    | 'a' :: '{' :: rest =>
      (match rest.getLast? with
       | some '}' =>
         (match rest.dropLast with
          | k :: vs => basicKeyChars.contains k && sigSingleCheck f vs
          | [] => false)
       | _ => false)
    | 'a' :: rest => sigSingleCheck f rest
    | '(' :: rest =>
      (match rest.getLast? with
       | some ')' => !rest.dropLast.isEmpty && sigMultiCheck f rest.dropLast
       | _ => false)
    | _ => false

/-- Modelled from the spec: validity of a multi signature — a concatenation
    of valid singles. -/
def sigMultiCheck : Nat → List Char → Bool
  | 0, _ => false
  | f + 1, s =>
    match s with
    | [] => true
    | _ =>
      match takeSingle s with
      | some (t, r) => sigSingleCheck f t && sigMultiCheck f r
      | none => false

end

/-- Modelled from the spec: `SignatureSingle` well-formedness. -/
def sigSingleValid (s : List Char) : Bool := sigSingleCheck (s.length + 1) s

/-- Modelled from the spec: `SignatureMulti` well-formedness. -/
def sigMultiValid (s : List Char) : Bool := sigMultiCheck (s.length + 1) s

/-- A UTF-8 continuation byte. -/
def isCont (b : UInt8) : Bool := decide (0x80 ≤ b.toNat ∧ b.toNat ≤ 0xBF)

/-- Modelled from the spec: `std::str::from_utf8` succeeding — standard UTF-8
    validity (shortest-form, no surrogates). Fuelled; `length + 1` suffices. -/
def utf8ValidAux : Nat → List UInt8 → Bool
  | 0, l => l.isEmpty
  | f + 1, l =>
    match l with
    | [] => true
    | b :: rest =>
      let n := b.toNat
      if n < 0x80 then utf8ValidAux f rest
      else if n < 0xC2 then false
      else if n ≤ 0xDF then
        match rest with
        | c :: r => isCont c && utf8ValidAux f r
        | [] => false
      else if n ≤ 0xEF then
        match rest with
        | c :: d :: r =>
          isCont c && isCont d &&
          (decide (n ≠ 0xE0) || decide (0xA0 ≤ c.toNat)) &&
          (decide (n ≠ 0xED) || decide (c.toNat ≤ 0x9F)) &&
          utf8ValidAux f r
        | _ => false
      else if n ≤ 0xF4 then
        match rest with
        | c :: d :: e :: r =>
          isCont c && isCont d && isCont e &&
          (decide (n ≠ 0xF0) || decide (0x90 ≤ c.toNat)) &&
          (decide (n ≠ 0xF4) || decide (c.toNat ≤ 0x8F)) &&
          utf8ValidAux f r
        | _ => false
      else false

/-- Modelled from the spec: UTF-8 validity of a byte string. -/
def utf8Valid (l : List UInt8) : Bool := utf8ValidAux (l.length + 1) l

/-- Modelled from the spec: the `DBusStr` subtype predicate of the external
    `dbus_strings` crate — valid UTF-8 with no interior NUL byte. -/
def dbusStrValid (l : List UInt8) : Bool := utf8Valid l && !(l.contains 0)

/-- A character permitted inside an object-path element: `[A-Za-z0-9_]`. -/
def objPathElemChar (b : UInt8) : Bool :=
  decide ((0x41 ≤ b.toNat ∧ b.toNat ≤ 0x5A) ∨ (0x61 ≤ b.toNat ∧ b.toNat ≤ 0x7A) ∨
          (0x30 ≤ b.toNat ∧ b.toNat ≤ 0x39) ∨ b.toNat = 0x5F)

/-- Modelled from the spec: the `ObjectPath` subtype predicate — "content
    must satisfy path syntax" (glossary): a lone `/`, or `/`-separated
    nonempty `[A-Za-z0-9_]` elements with no trailing slash. -/
def objPathValid (l : List UInt8) : Bool :=
  match l with
  | [] => false
  | b :: rest =>
    b == 0x2F &&
    (rest.isEmpty ||
      (rest.all (fun c => objPathElemChar c || c == 0x2F) &&
       !(decide (rest.getLast? = some 0x2F)) &&
       !(((b :: rest).zip rest).any (fun p => p.1 == 0x2F && p.2 == 0x2F))))

/-- src: `pub struct Multi<'a>` — a multi-signature reader view. -/
structure Multi where
  sig : List Char
  data : List UInt8
  is_big_endian : Bool
  deriving DecidableEq, Repr

/-- src: `pub struct MultiIter<'a>`. -/
structure MultiIter where
  inner : Multi
  start_pos : Nat
  deriving DecidableEq, Repr

/-- src: `pub struct Single<'a>` — a single-signature reader view. -/
structure Single where
  sig : List Char
  data : List UInt8
  start_pos : Nat
  is_big_endian : Bool
  deriving DecidableEq, Repr

/-- src: `pub struct Array<'a>` — the decoded array view. -/
structure Array where
  inner_sig : List Char
  data : List UInt8
  start_pos : Nat
  is_big_endian : Bool
  deriving DecidableEq, Repr

/-- src: `pub struct Dict<'a>` — the decoded dict view. -/
structure Dict where
  outer_sig : List Char
  key_sig : List Char
  value_sig : List Char
  data : List UInt8
  is_big_endian : Bool
  deriving DecidableEq, Repr

/-- src: `pub enum Parsed<'a>`. Strings and object paths are carried as their
    payload bytes; a double is carried as its IEEE-754 bit pattern. -/
inductive Parsed where
  | array : Array → Parsed
  | dict : Dict → Parsed
  | struct : Multi → Parsed
  | variant : Single → Parsed
  | objectPath : List UInt8 → Parsed
  | signature : List Char → Parsed
  | string : List UInt8 → Parsed
  | boolean : Bool → Parsed
  | byte : UInt8 → Parsed
  | int16 : Int → Parsed
  | int32 : Int → Parsed
  | int64 : Int → Parsed
  | uint16 : Nat → Parsed
  | uint32 : Nat → Parsed
  | uint64 : Nat → Parsed
  | double : Nat → Parsed
  | unixFd : Nat → Parsed
  deriving DecidableEq, Repr

def Multi.new (sig : List Char) (data : List UInt8) (is_big_endian : Bool) : Multi :=
  { sig, data, is_big_endian }

def Multi.iter (m : Multi) : MultiIter := { inner := m, start_pos := 0 }

def Single.new (sig : List Char) (data : List UInt8) (start_pos : Nat)
    (is_big_endian : Bool) : Single :=
  { sig, data, start_pos, is_big_endian }

/-- src: `Single::read1` — `self.data.get(0)`, so short data is a recoverable
    `NotEnoughData`. -/
def Single.read1 (s : Single) : RRes UInt8 :=
  match s.data with
  | [] => .err .NotEnoughData
  | b :: _ => .ok b

/-- src: `Single::read2` — `self.data[0..1].try_into()` into `[u8; 2]`: the
    range indexing panics when the data is empty, and otherwise the 1-byte
    slice never converts into a 2-byte array, so the result is always
    `Err(NotEnoughData)` regardless of how much data is present. -/
def Single.read2 (s : Single) : RRes Nat :=
  if 1 ≤ s.data.length then .err .NotEnoughData else .panic

/-- src: `Single::read4` — `self.data[0..4].try_into()`: the range indexing
    panics when `data.len() < 4`; when it does not panic the conversion
    always succeeds (the `map_err` is dead code). -/
def Single.read4 (s : Single) : RRes Nat :=
  if 4 ≤ s.data.length then .ok (decodeBytes s.is_big_endian (s.data.take 4)) else .panic

/-- src: `Single::read8` — same panic-on-short-data shape as `read4`. -/
def Single.read8 (s : Single) : RRes Nat :=
  if 8 ≤ s.data.length then .ok (decodeBytes s.is_big_endian (s.data.take 8)) else .panic

/-- src: `Single::read_f64` — returns the 8 data bytes as an IEEE-754 bit
    pattern; same panic-on-short-data shape as `read8`. -/
def Single.read_f64 (s : Single) : RRes Nat :=
  if 8 ≤ s.data.length then .ok (decodeBytes s.is_big_endian (s.data.take 8)) else .panic

/-- src: `Single::read_sig` — 1-byte length, then `data.get(1..siglen+1)`,
    then `from_utf8` + `SignatureMulti::new` (both modelled; the byte-to-char
    map composed with the grammar check rejects exactly the same inputs). -/
def Single.read_sig (s : Single) : RRes (List Char) :=
  match s.read1 with
  | .ok b =>
    let siglen := b.toNat
    if siglen + 1 ≤ s.data.length then
      let sigChars := ((s.data.drop 1).take siglen).map (fun x => Char.ofNat x.toNat)
      if sigMultiValid sigChars then .ok sigChars else .err .InvalidString
    else .err .NotEnoughData
  | .err e => .err e
  | .panic => .panic

/-- src: `Single::read_str::<T>` — 4-byte length, then `data.get(4..len+4)`,
    then `from_utf8` + `T::new`; the two external checks are the `valid`
    parameter (instantiated with `dbusStrValid` / `objPathValid`). -/
def Single.read_str (valid : List UInt8 → Bool) (s : Single) : RRes (List UInt8) :=
  match s.read4 with
  | .ok len =>
    if 4 + len ≤ s.data.length then
      let payload := (s.data.drop 4).take len
      if valid payload then .ok payload else .err .InvalidString
    else .err .NotEnoughData
  | .err e => .err e
  | .panic => .panic

/-- src: `Single::inner_variant` — read the inner signature, validate it,
    then skip `sig-length byte + siglen + NUL` padded to the inner alignment
    computed at the absolute position. -/
def Single.inner_variant (s : Single) : RRes Single :=
  match s.read1 with
  | .ok b =>
    let siglen := b.toNat
    if siglen + 1 ≤ s.data.length then
      let sigChars := ((s.data.drop 1).take siglen).map (fun x => Char.ofNat x.toNat)
      if sigSingleValid sigChars then
        let data_start :=
          align_up (s.start_pos + siglen + 2) (align_of (sigChars.headD ' ')) - s.start_pos
        if data_start ≤ s.data.length then
          .ok { sig := sigChars, data := s.data.drop data_start,
                start_pos := s.start_pos + data_start, is_big_endian := s.is_big_endian }
        else .err .NotEnoughData
      else .err .InvalidString
    else .err .NotEnoughData
  | .err e => .err e
  | .panic => .panic

/-- src: `Single::inner_struct` — strip the outer parentheses and share the
    data and endianness. -/
def Single.inner_struct (s : Single) : Multi :=
  { sig := (s.sig.drop 1).dropLast, data := s.data, is_big_endian := s.is_big_endian }

mutual

/-- src: `Single::get_real_length`, fuelled. The final wildcard arm panics in
    Rust (unvalidated signature character); fuel exhaustion is also `panic`. -/
def Single.get_real_length : Nat → Single → RRes Nat
  | 0, _ => .panic
  | f + 1, s =>
    match s.sig with
    | [] => .panic
    | c :: _ =>
      if c = 'y' then .ok 1
      else if c = 'n' ∨ c = 'q' then .ok 2
      else if c = 'i' ∨ c = 'u' ∨ c = 'b' ∨ c = 'h' then .ok 4
      else if c = 'x' ∨ c = 't' ∨ c = 'd' then .ok 8
      else if c = 's' ∨ c = 'o' then
        match s.read4 with
        | .ok x => .ok (x + 4 + 1)
        | .err e => .err e
        | .panic => .panic
      else if c = 'g' then
        match s.read1 with
        | .ok x => .ok (x.toNat + 1 + 1)
        | .err e => .err e
        | .panic => .panic
      else if c = 'a' then
        match s.read4 with
        | .ok x => if x > 67108864 then .err .NumberTooBig else .ok (x + 4)
        | .err e => .err e
        | .panic => .panic
      else if c = 'v' then
        match s.inner_variant with
        | .ok x =>
          match Single.get_real_length f x with
          | .ok l => .ok (l + (s.data.length - x.data.length))
          | .err e => .err e
          | .panic => .panic
        | .err e => .err e
        | .panic => .panic
      else if c = '(' then Multi.get_real_length f s.inner_struct
      else .panic

/-- src: `Multi::get_real_length` — drive the iterator to exhaustion and
    count the consumed bytes. -/
def Multi.get_real_length : Nat → Multi → RRes Nat
  | 0, _ => .panic
  | f + 1, m =>
    match MultiIter.drain f { inner := m, start_pos := 0 } with
    | .ok it => .ok (m.data.length - it.inner.data.length)
    | .err e => .err e
    | .panic => .panic

/-- The `while let Some(r) = iter.next() { r?; }` loop of
    `Multi::get_real_length`, returning the exhausted iterator. -/
def MultiIter.drain : Nat → MultiIter → RRes MultiIter
  | 0, _ => .panic
  | f + 1, it =>
    match MultiIter.nextF f it with
    | (none, it2) => .ok it2
    | (some (.ok _), it2) => MultiIter.drain f it2
    | (some (.err e), _) => .err e
    | (some .panic, _) => .panic

/-- src: `impl Iterator for MultiIter — fn next`. Returns the yielded item
    (if any) and the iterator's state afterwards; on an `Err` the Rust code
    returns before mutating `self`, so the state is returned unchanged. -/
def MultiIter.nextF : Nat → MultiIter → Option (RRes Single) × MultiIter
  | 0, it => (some .panic, it)
  | f + 1, it =>
    match takeSingle it.inner.sig with
    | none => (none, it)
    | some (first, rest) =>
      let s : Single :=
        { sig := first, data := it.inner.data, start_pos := it.start_pos,
          is_big_endian := it.inner.is_big_endian }
      match Single.get_real_length f s with
      | .ok len0 =>
        let len :=
          match rest with
          | [] => len0
          | r :: _ => align_up (len0 + it.start_pos) (align_of r) - it.start_pos
        if len > it.inner.data.length then (some (.err .NotEnoughData), it)
        else
          (some (.ok { s with data := it.inner.data.take len }),
           { inner := { sig := rest, data := it.inner.data.drop len,
                        is_big_endian := it.inner.is_big_endian },
             start_pos := it.start_pos + len })
      | .err e => (some (.err e), it)
      | .panic => (some .panic, it)

end

/-- src: `Single::parse_array`. The two `unwrap()` calls on a malformed
    (never pre-validated) dict signature panic. -/
def Single.parse_array (s : Single) : RRes Parsed :=
  match s.read4 with
  | .ok x =>
    if x > 67108864 then .err .NumberTooBig
    else if s.sig.getD 1 ' ' = '{' then
      let inner_sig := (s.sig.drop 2).dropLast
      match takeSingle inner_sig with
      | some (key_sig, value_rest) =>
        match takeSingle value_rest with
        | some (value_sig, _) =>
          let data_start := align_up (s.start_pos + 4) (align_of '{') - s.start_pos
          if data_start + x > s.data.length then .err .NotEnoughData
          else
            .ok (.dict { outer_sig := s.sig, key_sig, value_sig,
                         data := (s.data.drop data_start).take x,
                         is_big_endian := s.is_big_endian })
        | none => .panic
      | none => .panic
    else
      let inner_sig := s.sig.drop 1
      let data_start := align_up (s.start_pos + 4) (align_of (inner_sig.headD ' ')) - s.start_pos
      if data_start + x > s.data.length then .err .NotEnoughData
      else
        .ok (.array { inner_sig, data := (s.data.drop data_start).take x,
                      start_pos := data_start + s.start_pos,
                      is_big_endian := s.is_big_endian })
  | .err e => .err e
  | .panic => .panic

/-- src: `Single::parse`. The boolean arm accepts only the decoded values
    0 and 1; the final wildcard arm panics. -/
def Single.parse (s : Single) : RRes Parsed :=
  match s.sig with
  | [] => .panic
  | c :: _ =>
    if c = 'y' then
      match s.read1 with
      | .ok b => .ok (.byte b)
      | .err e => .err e
      | .panic => .panic
    else if c = 'n' then
      match s.read2 with
      | .ok x => .ok (.int16 (toSigned 16 x))
      | .err e => .err e
      | .panic => .panic
    else if c = 'q' then
      match s.read2 with
      | .ok x => .ok (.uint16 x)
      | .err e => .err e
      | .panic => .panic
    else if c = 'i' then
      match s.read4 with
      | .ok x => .ok (.int32 (toSigned 32 x))
      | .err e => .err e
      | .panic => .panic
    else if c = 'u' then
      match s.read4 with
      | .ok x => .ok (.uint32 x)
      | .err e => .err e
      | .panic => .panic
    else if c = 'b' then
      match s.read4 with
      | .ok x =>
        if x = 0 then .ok (.boolean false)
        else if x = 1 then .ok (.boolean true)
        else .err .InvalidBoolean
      | .err e => .err e
      | .panic => .panic
    else if c = 'h' then
      match s.read4 with
      | .ok x => .ok (.unixFd x)
      | .err e => .err e
      | .panic => .panic
    else if c = 'x' then
      match s.read8 with
      | .ok x => .ok (.int64 (toSigned 64 x))
      | .err e => .err e
      | .panic => .panic
    else if c = 't' then
      match s.read8 with
      | .ok x => .ok (.uint64 x)
      | .err e => .err e
      | .panic => .panic
    else if c = 'd' then
      match s.read_f64 with
      | .ok x => .ok (.double x)
      | .err e => .err e
      | .panic => .panic
    else if c = 'g' then
      match s.read_sig with
      | .ok x => .ok (.signature x)
      | .err e => .err e
      | .panic => .panic
    else if c = 's' then
      match s.read_str dbusStrValid with
      | .ok x => .ok (.string x)
      | .err e => .err e
      | .panic => .panic
    else if c = 'o' then
      match s.read_str objPathValid with
      | .ok x => .ok (.objectPath x)
      | .err e => .err e
      | .panic => .panic
    else if c = 'v' then
      match s.inner_variant with
      | .ok x => .ok (.variant x)
      | .err e => .err e
      | .panic => .panic
    else if c = '(' then .ok (.struct s.inner_struct)
    else if c = 'a' then s.parse_array
    else .panic

/-- src: `impl Iterator for Array — fn next`, fuelled through
    `get_real_length`. The comparison `len < s.data.len()` is kept exactly as
    written in the source: it tests the just-truncated view, whose length is
    `len`, so it can never be true. -/
def Array.next (fuel : Nat) (a : Array) : Option (RRes Single) × Array :=
  if a.data.length = 0 then (none, a)
  else
    let s : Single :=
      { sig := a.inner_sig, data := a.data, start_pos := a.start_pos,
        is_big_endian := a.is_big_endian }
    match Single.get_real_length fuel s with
    | .ok len =>
      if len ≤ a.data.length then
        let s2 := { s with data := s.data.take len }
        if len < s2.data.length then
          let len2 := align_up (len + a.start_pos) (align_of (a.inner_sig.headD ' ')) - a.start_pos
          (some (.ok s2), { a with start_pos := a.start_pos + len2, data := a.data.drop len2 })
        else (some (.ok s2), { a with data := [] })
      else (some (.err .NotEnoughData), a)
    | .err _ => (some (.err .NotEnoughData), a)
    | .panic => (some .panic, a)

/-- src: `pub trait Marshal` — a value that reports its single signature and
    appends its own aligned bytes to a buffer. -/
structure Marshal where
  sig : List Char
  append_data_to : List UInt8 → List UInt8

/-- src: `marshal_impl!(u8, "y", 1)`. -/
def marshal_u8 (x : UInt8) : Marshal :=
  ⟨['y'], fun v => align_buf v 1 ++ [x]⟩

/-- src: `marshal_impl!(u16, "q", 2)` (host little-endian `to_ne_bytes`). -/
def marshal_u16 (x : Nat) : Marshal :=
  ⟨['q'], fun v => align_buf v 2 ++ leBytes 2 (x % 2 ^ 16)⟩

/-- src: `marshal_impl!(u32, "u", 4)`. -/
def marshal_u32 (x : Nat) : Marshal :=
  ⟨['u'], fun v => align_buf v 4 ++ leBytes 4 (x % 2 ^ 32)⟩

/-- src: `marshal_impl!(u64, "t", 8)`. -/
def marshal_u64 (x : Nat) : Marshal :=
  ⟨['t'], fun v => align_buf v 8 ++ leBytes 8 (x % 2 ^ 64)⟩

/-- src: `marshal_impl!(i16, "n", 2)`. -/
def marshal_i16 (x : Int) : Marshal :=
  ⟨['n'], fun v => align_buf v 2 ++ leBytes 2 (x % 2 ^ 16).toNat⟩

/-- src: `marshal_impl!(i32, "i", 4)`. -/
def marshal_i32 (x : Int) : Marshal :=
  ⟨['i'], fun v => align_buf v 4 ++ leBytes 4 (x % 2 ^ 32).toNat⟩

/-- src: `marshal_impl!(i64, "x", 8)`. -/
def marshal_i64 (x : Int) : Marshal :=
  ⟨['x'], fun v => align_buf v 8 ++ leBytes 8 (x % 2 ^ 64).toNat⟩

/-- src: `marshal_impl!(f64, "d", 8)`; `x` is the IEEE-754 bit pattern. -/
def marshal_f64 (x : Nat) : Marshal :=
  ⟨['d'], fun v => align_buf v 8 ++ leBytes 8 (x % 2 ^ 64)⟩

/-- src: `impl Marshal for DBusStr` — u32 length (itself an aligned `u`
    append), payload, NUL. -/
def marshal_dbus_str (sbytes : List UInt8) : Marshal :=
  ⟨['s'], fun v => (align_buf v 4 ++ leBytes 4 (sbytes.length % 2 ^ 32)) ++ sbytes ++ [0]⟩

/-- src: `impl Marshal for ObjectPath` — delegates to the `DBusStr` append. -/
def marshal_object_path (sbytes : List UInt8) : Marshal :=
  ⟨['o'], fun v => (align_buf v 4 ++ leBytes 4 (sbytes.length % 2 ^ 32)) ++ sbytes ++ [0]⟩

/-- src: `impl Marshal for SignatureMulti` (and `SignatureSingle`) — u8
    length, bytes, NUL; no alignment. -/
def marshal_signature (sig : List Char) : Marshal :=
  ⟨['g'], fun v => v ++ [UInt8.ofNat (sig.length % 256)] ++ sig.map (fun c => UInt8.ofNat c.toNat) ++ [0]⟩

/-- src: `pub struct MultiBuf`. -/
structure MultiBuf where
  sig : List Char := []
  data : List UInt8 := []
  deriving DecidableEq, Repr

def MultiBuf.new : MultiBuf := {}

/-- src: `MultiBuf::append` — reject if the combined signature would exceed
    255 bytes (returning before any mutation), else extend signature and
    data. -/
def MultiBuf.append (b : MultiBuf) (value : Marshal) : Option DemarshalError × MultiBuf :=
  if b.sig.length + value.sig.length > 255 then (some .NumberTooBig, b)
  else (none, { sig := b.sig ++ value.sig, data := value.append_data_to b.data })

def MultiBuf.multi (b : MultiBuf) : Multi :=
  { sig := b.sig, data := b.data, is_big_endian := IS_BIG_ENDIAN }

def MultiBuf.into_inner (b : MultiBuf) : List Char × List UInt8 := (b.sig, b.data)

/-- src: `pub struct ArrayBuf`. -/
structure ArrayBuf where
  outer_sig : List Char
  data : List UInt8
  deriving DecidableEq, Repr

/-- src: `ArrayBuf::new` (the re-validation of `"a" + sig` by the external
    crate is elided; claims only quantify over already-built buffers). -/
def ArrayBuf.new (sig : List Char) : ArrayBuf := ⟨'a' :: sig, []⟩

/-- src: `ArrayBuf::append` — `WrongType` on signature mismatch, else append
    and run `verify_array_size`, which truncates back to the old length and
    reports `NumberTooBig` when the cap is exceeded. -/
def ArrayBuf.append (b : ArrayBuf) (value : Marshal) : Option DemarshalError × ArrayBuf :=
  if b.outer_sig.drop 1 ≠ value.sig then (some .WrongType, b)
  else
    let old_len := b.data.length
    let d := value.append_data_to b.data
    if d.length > ARRAY_MAX_LEN then (some .NumberTooBig, { b with data := d.take old_len })
    else (none, { b with data := d })

/-- src: `pub struct DictBuf`. -/
structure DictBuf where
  key_sig : List Char
  value_sig : List Char
  outer_sig : List Char
  data : List UInt8
  deriving DecidableEq, Repr

/-- src: `DictBuf::append` — check both signatures, align the accumulated
    data to 8, append key then value, and enforce the size cap with the same
    truncate-on-failure discipline. -/
def DictBuf.append (b : DictBuf) (key value : Marshal) : Option DemarshalError × DictBuf :=
  if b.value_sig ≠ value.sig then (some .WrongType, b)
  else if b.key_sig ≠ key.sig then (some .WrongType, b)
  else
    let old_len := b.data.length
    let d := value.append_data_to (key.append_data_to (align_buf b.data 8))
    if d.length > ARRAY_MAX_LEN then (some .NumberTooBig, { b with data := d.take old_len })
    else (none, { b with data := d })

/-- The `v` length formula exactly as the spec words it (§4.3; refinement
    target, to be compared with the source's result): `1 + siglen +
    padding-to-inner-alignment + real_byte_length(inner)`, the padding
    computed from the absolute start position (here taken after the length
    byte and the `siglen` signature bytes — the most favourable reading). -/
def spec_variant_length (start_pos siglen innerAlign innerLen : Nat) : Nat :=
  1 + siglen + (align_up (start_pos + 1 + siglen) innerAlign - (start_pos + 1 + siglen)) + innerLen

/-! ## Helper lemmas -/

theorem land_mask (y k : Nat) (hk : k ≤ 64) :
    y &&& (2 ^ 64 - 2 ^ k) = 2 ^ k * (y % 2 ^ 64 / 2 ^ k) := by
  have hk1 : (0:Nat) < 2 ^ k := Nat.two_pow_pos k
  have hkle : (2:Nat) ^ k ≤ 2 ^ 64 := Nat.pow_le_pow_right (by norm_num) hk
  have h2 : (2:Nat) ^ k - 1 < 2 ^ 64 := by omega
  apply Nat.eq_of_testBit_eq
  intro i
  rw [Nat.testBit_and, show (2:Nat) ^ 64 - 2 ^ k = 2 ^ 64 - ((2 ^ k - 1) + 1) by omega,
      Nat.testBit_two_pow_sub_succ h2, Nat.testBit_two_pow_sub_one,
      show 2 ^ k * (y % 2 ^ 64 / 2 ^ k) = ((y % 2 ^ 64) >>> k) <<< k by
        rw [Nat.shiftLeft_eq, Nat.shiftRight_eq_div_pow]; ring,
      Nat.testBit_shiftLeft, Nat.testBit_shiftRight, Nat.testBit_mod_two_pow]
  by_cases hik : i < k
  · have h3 : ¬ k ≤ i := by omega
    simp [hik, h3]
  · have h3 : k ≤ i := by omega
    have h4 : k + (i - k) = i := by omega
    simp [hik, h3, h4, Bool.and_comm]

theorem align_up_eq_pow (pos k : Nat) (hk : k ≤ 64) :
    align_up pos (2 ^ k) = 2 ^ k * ((pos + 2 ^ k - 1) % 2 ^ 64 / 2 ^ k) := by
  have hk1 : (0:Nat) < 2 ^ k := Nat.two_pow_pos k
  have hkle : (2:Nat) ^ k ≤ 2 ^ 64 := Nat.pow_le_pow_right (by norm_num) hk
  unfold align_up usizeNot
  rw [show (2:Nat) ^ 64 - 1 - (2 ^ k - 1) = 2 ^ 64 - 2 ^ k by omega]
  exact land_mask _ k hk

/-- In the overflow-free range, `align_up` rounds up to the next multiple:
    it is at least `pos`, below `pos + a`, divisible by `a`, and minimal. -/
theorem align_up_spec (pos a : Nat) (ha : a = 1 ∨ a = 2 ∨ a = 4 ∨ a = 8)
    (h : pos + a ≤ 2 ^ 64) :
    pos ≤ align_up pos a ∧ align_up pos a < pos + a ∧ a ∣ align_up pos a ∧
      ∀ m, pos ≤ m → a ∣ m → align_up pos a ≤ m := by
  have h64 : (2:Nat) ^ 64 = 18446744073709551616 := by norm_num
  rw [h64] at h
  rcases ha with rfl | rfl | rfl | rfl
  · have e := align_up_eq_pow pos 0 (by norm_num)
    norm_num [h64] at e
    rw [e]
    refine ⟨?_, ?_, ?_, fun m hm hd => ?_⟩ <;> omega
  · have e := align_up_eq_pow pos 1 (by norm_num)
    norm_num [h64] at e
    rw [e]
    refine ⟨?_, ?_, ?_, fun m hm hd => ?_⟩ <;> omega
  · have e := align_up_eq_pow pos 2 (by norm_num)
    norm_num [h64] at e
    rw [e]
    refine ⟨?_, ?_, ?_, fun m hm hd => ?_⟩ <;> omega
  · have e := align_up_eq_pow pos 3 (by norm_num)
    norm_num [h64] at e
    rw [e]
    refine ⟨?_, ?_, ?_, fun m hm hd => ?_⟩ <;> omega

theorem align_of_cases (c : Char) :
    align_of c = 1 ∨ align_of c = 2 ∨ align_of c = 4 ∨ align_of c = 8 := by
  unfold align_of
  split_ifs <;> simp

theorem align_up_one (n : Nat) (h : n < 2 ^ 64) : align_up n 1 = n := by
  have e := align_up_eq_pow n 0 (by norm_num)
  norm_num at e
  have hN : (2:Nat) ^ 64 = 18446744073709551616 := by norm_num
  rw [hN] at h
  rw [e]
  omega

theorem align_buf_length (v : List UInt8) (a : Nat) :
    (align_buf v a).length = v.length + (align_up v.length a - v.length) := by
  simp [align_buf]

/-! ## Claim theorems -/

/-- **C1** (divergence witness): appending `0x1234 : u16` to a fresh MultiBuf
    yields signature `q` and little-endian bytes `[0x34, 0x12]`; reading them
    back with host endianness, the first (and only) single of the multi-reader
    does not parse back to `UInt16(0x1234)` — `parse` returns
    `Err(NotEnoughData)`, because `Single::read2` converts the 1-byte slice
    `data[0..1]` into a `[u8; 2]`, which always fails. -/
theorem c1_roundtrip_u16_fails :
    MultiBuf.new.append (marshal_u16 0x1234) = (none, ⟨['q'], [0x34, 0x12]⟩) ∧
    MultiIter.nextF 5 (Multi.new ['q'] [0x34, 0x12] IS_BIG_ENDIAN).iter =
      (some (.ok ⟨['q'], [0x34, 0x12], 0, false⟩), ⟨⟨[], [], false⟩, 2⟩) ∧
    (Single.mk ['q'] [0x34, 0x12] 0 false).parse = .err .NotEnoughData ∧
    (Single.mk ['q'] [0x34, 0x12] 0 false).parse ≠ .ok (.uint16 0x1234) := by
  decide

/-- **C2** (divergence witness): parsing `(yq)` over `[0x01, 0x00, 0x34, 0x12]`
    (little-endian) yields a struct whose inner multi-reader iterates to a
    `y` single parsing to `Byte(1)` and a `q` single over `[0x34, 0x12]` —
    but parsing that `q` single returns `Err(NotEnoughData)` instead of
    `UInt16(0x1234)`, because `read2` slices only `data[0..1]`. -/
theorem c2_struct_yq :
    (Single.mk ['(', 'y', 'q', ')'] [0x01, 0x00, 0x34, 0x12] 0 false).parse =
      .ok (.struct ⟨['y', 'q'], [0x01, 0x00, 0x34, 0x12], false⟩) ∧
    MultiIter.nextF 5 ⟨⟨['y', 'q'], [0x01, 0x00, 0x34, 0x12], false⟩, 0⟩ =
      (some (.ok ⟨['y'], [0x01, 0x00], 0, false⟩), ⟨⟨['q'], [0x34, 0x12], false⟩, 2⟩) ∧
    (Single.mk ['y'] [0x01, 0x00] 0 false).parse = .ok (.byte 1) ∧
    MultiIter.nextF 5 ⟨⟨['q'], [0x34, 0x12], false⟩, 2⟩ =
      (some (.ok ⟨['q'], [0x34, 0x12], 2, false⟩), ⟨⟨[], [], false⟩, 4⟩) ∧
    (Single.mk ['q'] [0x34, 0x12] 2 false).parse = .err .NotEnoughData := by
  decide

/-- **C3** (divergence witness): parsing `ai` over
    `[0x0C,0,0,0, 1,0,0,0, 2,0,0,0, 3,0,0,0]` yields the expected 12-byte
    array view, but iterating it yields only ONE element (`Int32(1)`) and
    then `None`: after `s.data` is truncated to `len` bytes, the source
    compares `len < s.data.len()` (i.e. `len < len`), which is never true,
    so the iterator always discards the rest of the payload. -/
theorem c3_array_ai :
    (Single.mk ['a', 'i'] [0x0C, 0, 0, 0, 1, 0, 0, 0, 2, 0, 0, 0, 3, 0, 0, 0] 0 false).parse =
      .ok (.array ⟨['i'], [1, 0, 0, 0, 2, 0, 0, 0, 3, 0, 0, 0], 4, false⟩) ∧
    Array.next 5 ⟨['i'], [1, 0, 0, 0, 2, 0, 0, 0, 3, 0, 0, 0], 4, false⟩ =
      (some (.ok ⟨['i'], [1, 0, 0, 0], 4, false⟩), ⟨['i'], [], 4, false⟩) ∧
    (Single.mk ['i'] [1, 0, 0, 0] 4 false).parse = .ok (.int32 1) ∧
    Array.next 5 ⟨['i'], [], 4, false⟩ = (none, ⟨['i'], [], 4, false⟩) := by
  decide

/-- **C7** (divergence witness): on data shorter than the scalar being read,
    `read4`, `read8` and `read_f64` panic (out-of-range slice indexing)
    instead of returning `Err(NotEnoughData)`, and so does `Single::parse`
    on such a scalar; `read2` panics on empty data. -/
theorem c7_short_reads_panic :
    (Single.mk ['u'] [1, 2] 0 false).read4 = .panic ∧
    (Single.mk ['u'] [1, 2] 0 false).parse = .panic ∧
    (Single.mk ['t'] [1, 2, 3] 0 false).read8 = .panic ∧
    (Single.mk ['d'] [1, 2, 3] 0 false).read_f64 = .panic ∧
    (Single.mk ['q'] [] 0 false).read2 = .panic := by
  decide

/-- **C6**: parsing a `b` single with at least 4 bytes of data decodes the
    first four bytes with the context endianness and yields `Boolean(false)`
    for 0, `Boolean(true)` for 1, and `Err(InvalidBoolean)` for every other
    value — no other outcome. -/
theorem c6_parse_boolean (s : Single) (hsig : s.sig = ['b']) (h4 : 4 ≤ s.data.length) :
    s.parse =
      (if decodeBytes s.is_big_endian (s.data.take 4) = 0 then .ok (.boolean false)
       else if decodeBytes s.is_big_endian (s.data.take 4) = 1 then .ok (.boolean true)
       else .err .InvalidBoolean) := by
  obtain ⟨sig, data, pos, bige⟩ := s
  simp only at hsig h4
  subst hsig
  simp [Single.parse, Single.read4, h4]

/-- Witness for C6 at a concrete input: the 4-byte value 2 at a `b` position
    yields `InvalidBoolean`. -/
theorem c6_witness :
    ((Single.mk ['b'] [2, 0, 0, 0] 0 false).sig = ['b'] ∧
     4 ≤ (Single.mk ['b'] [2, 0, 0, 0] 0 false).data.length) ∧
    (Single.mk ['b'] [2, 0, 0, 0] 0 false).parse = .err .InvalidBoolean := by
  refine ⟨⟨rfl, by decide⟩, ?_⟩
  rw [c6_parse_boolean (Single.mk ['b'] [2, 0, 0, 0] 0 false) rfl (by decide)]
  decide

/-- **C5**: `MultiBuf::append` fails with `NumberTooBig` exactly when the
    combined signature length exceeds 255; on failure the buffer is
    unchanged, and on success the signature is extended by exactly the
    value's signature (and the data by the value's bytes). -/
theorem c5_multibuf_sig_cap (b : MultiBuf) (value : Marshal) :
    ((b.append value).1 = some .NumberTooBig ↔ b.sig.length + value.sig.length > 255) ∧
    (b.sig.length + value.sig.length > 255 → (b.append value).2 = b) ∧
    (b.sig.length + value.sig.length ≤ 255 →
      (b.append value).1 = none ∧
      (b.append value).2.sig = b.sig ++ value.sig ∧
      (b.append value).2.data = value.append_data_to b.data) := by
  by_cases h : b.sig.length + value.sig.length > 255
  · simp [MultiBuf.append, h]
  · simp [MultiBuf.append, h]

set_option maxRecDepth 4000 in
/-- Witness for C5 at concrete inputs: a 255-char signature rejects one more
    single (buffer unchanged), while a fresh buffer accepts it and carries
    signature `q`. -/
theorem c5_witness :
    ((MultiBuf.mk (List.replicate 255 'y') []).append (marshal_u16 7)).1 = some .NumberTooBig ∧
    ((MultiBuf.mk (List.replicate 255 'y') []).append (marshal_u16 7)).2 =
      MultiBuf.mk (List.replicate 255 'y') [] ∧
    (MultiBuf.new.append (marshal_u16 7)).2.sig = ['q'] := by
  have h1 := c5_multibuf_sig_cap (MultiBuf.mk (List.replicate 255 'y') []) (marshal_u16 7)
  have h2 := c5_multibuf_sig_cap MultiBuf.new (marshal_u16 7)
  have hlen : (MultiBuf.mk (List.replicate 255 'y') []).sig.length + (marshal_u16 7).sig.length > 255 := by
    show (List.replicate 255 'y').length + (['q'] : List Char).length > 255
    rw [List.length_replicate]
    norm_num
  have hlen2 : MultiBuf.new.sig.length + (marshal_u16 7).sig.length ≤ 255 := by
    show ([] : List Char).length + (['q'] : List Char).length ≤ 255
    norm_num
  refine ⟨h1.1.mpr hlen, h1.2.1 hlen, ?_⟩
  rw [(h2.2.2 hlen2).2.1]
  simp [marshal_u16, MultiBuf.new]

/-- **C9** counterexample: at `pos = 2^64 - 1` (64-bit `usize` arithmetic
    wraps) `align_up` returns 0, which is not `≥ pos`, so the claim as
    stated — for *every* position — fails. -/
theorem c9_counterexample :
    align_up (2 ^ 64 - 1) 8 = 0 ∧ ¬ (2 ^ 64 - 1 ≤ align_up (2 ^ 64 - 1) 8) := by
  decide

/-- **C9** (amended): for every position `pos` with `pos + a ≤ 2^64` (no
    64-bit overflow) and every alignment `a ∈ {1,2,4,8}`, `align_up pos a`
    is the smallest multiple of `a` that is `≥ pos`. -/
theorem c9_align_up_minimal (pos a : Nat) (ha : a = 1 ∨ a = 2 ∨ a = 4 ∨ a = 8)
    (hpos : pos + a ≤ 2 ^ 64) :
    pos ≤ align_up pos a ∧ a ∣ align_up pos a ∧
      ∀ m, pos ≤ m → a ∣ m → align_up pos a ≤ m := by
  obtain ⟨h1, _, h3, h4⟩ := align_up_spec pos a ha hpos
  exact ⟨h1, h3, h4⟩

/-- Witness for C9 at a concrete input: `align_up 5 8` is a multiple of 8,
    lies between 5 and the next multiple 8, and is minimal there. -/
theorem c9_witness :
    (5 + 8 ≤ 2 ^ 64) ∧ 5 ≤ align_up 5 8 ∧ 8 ∣ align_up 5 8 ∧ align_up 5 8 ≤ 8 := by
  have h := c9_align_up_minimal 5 8 (by norm_num) (by norm_num)
  exact ⟨by norm_num, h.1, h.2.1, h.2.2 8 (by norm_num) ⟨1, rfl⟩⟩

/-- **C4**: for every ArrayBuf/DictBuf state and every appended value of
    matching signature (whose `append_data_to` only extends the buffer, as
    every `Marshal` implementation in the source does): if the accumulated
    data would exceed 67,108,864 bytes the append returns `NumberTooBig`
    and leaves the buffer byte-for-byte unchanged; otherwise it returns Ok. -/
theorem c4_size_cap (m k v : Marshal) (ab : ArrayBuf) (db : DictBuf)
    (hm : ∀ buf, ∃ s, m.append_data_to buf = buf ++ s)
    (hk : ∀ buf, ∃ s, k.append_data_to buf = buf ++ s)
    (hv : ∀ buf, ∃ s, v.append_data_to buf = buf ++ s)
    (hab : ab.outer_sig.drop 1 = m.sig)
    (hdbk : db.key_sig = k.sig) (hdbv : db.value_sig = v.sig) :
    ((m.append_data_to ab.data).length > ARRAY_MAX_LEN →
        ab.append m = (some .NumberTooBig, ab)) ∧
    ((m.append_data_to ab.data).length ≤ ARRAY_MAX_LEN → (ab.append m).1 = none) ∧
    ((v.append_data_to (k.append_data_to (align_buf db.data 8))).length > ARRAY_MAX_LEN →
        db.append k v = (some .NumberTooBig, db)) ∧
    ((v.append_data_to (k.append_data_to (align_buf db.data 8))).length ≤ ARRAY_MAX_LEN →
        (db.append k v).1 = none) := by
  obtain ⟨s1, hs1⟩ := hm ab.data
  obtain ⟨s2, hs2⟩ := hk (align_buf db.data 8)
  obtain ⟨s3, hs3⟩ := hv (k.append_data_to (align_buf db.data 8))
  have hd : v.append_data_to (k.append_data_to (align_buf db.data 8)) =
      db.data ++ (List.replicate (align_up db.data.length 8 - db.data.length) 0 ++ s2 ++ s3) := by
    rw [hs3, hs2]
    simp [align_buf, List.append_assoc]
  refine ⟨fun hgt => ?_, fun hle => ?_, fun hgt => ?_, fun hle => ?_⟩
  · simp only [ArrayBuf.append, hab, ne_eq, not_true_eq_false, if_false, if_pos hgt]
    have ht : (m.append_data_to ab.data).take ab.data.length = ab.data := by
      rw [hs1]
      exact List.take_left _ _
    rw [ht]
  · simp only [ArrayBuf.append, hab, ne_eq, not_true_eq_false, if_false,
      if_neg (by omega : ¬ (m.append_data_to ab.data).length > ARRAY_MAX_LEN)]
  · simp only [DictBuf.append, hdbk, hdbv, ne_eq, not_true_eq_false, if_false, if_pos hgt]
    have ht : (v.append_data_to (k.append_data_to (align_buf db.data 8))).take db.data.length =
        db.data := by
      rw [hd]
      exact List.take_left _ _
    rw [ht, ← hdbk, ← hdbv]
  · simp only [DictBuf.append, hdbk, hdbv, ne_eq, not_true_eq_false, if_false,
      if_neg (by omega :
        ¬ (v.append_data_to (k.append_data_to (align_buf db.data 8))).length > ARRAY_MAX_LEN)]

/-- Witness for C4 at concrete inputs: a buffer already holding exactly
    67,108,864 bytes rejects one more `y` byte (and one more `y`/`y` dict
    entry) with `NumberTooBig`, unchanged. -/
theorem c4_witness :
    (∀ buf, ∃ s, (marshal_u8 0).append_data_to buf = buf ++ s) ∧
    (ArrayBuf.mk ['a', 'y'] (List.replicate ARRAY_MAX_LEN 0)).append (marshal_u8 0) =
      (some .NumberTooBig, ArrayBuf.mk ['a', 'y'] (List.replicate ARRAY_MAX_LEN 0)) ∧
    (DictBuf.mk ['y'] ['y'] ['a', '{', 'y', 'y', '}'] (List.replicate ARRAY_MAX_LEN 0)).append
        (marshal_u8 0) (marshal_u8 0) =
      (some .NumberTooBig,
       DictBuf.mk ['y'] ['y'] ['a', '{', 'y', 'y', '}'] (List.replicate ARRAY_MAX_LEN 0)) := by
  have hext : ∀ buf, ∃ s, (marshal_u8 0).append_data_to buf = buf ++ s := by
    intro buf
    exact ⟨List.replicate (align_up buf.length 1 - buf.length) 0 ++ [0],
      by simp [marshal_u8, align_buf]⟩
  have h8 : align_up ARRAY_MAX_LEN 8 = ARRAY_MAX_LEN := by
    obtain ⟨ha, _, _, hmin⟩ :=
      align_up_spec ARRAY_MAX_LEN 8 (by norm_num) (by norm_num [ARRAY_MAX_LEN])
    have := hmin ARRAY_MAX_LEN le_rfl (by norm_num [ARRAY_MAX_LEN])
    omega
  have hu8len : ∀ buf : List UInt8, buf.length < 2 ^ 64 →
      ((marshal_u8 0).append_data_to buf).length = buf.length + 1 := by
    intro buf hb
    show (align_buf buf 1 ++ [0]).length = buf.length + 1
    rw [List.length_append, align_buf_length, align_up_one _ hb]
    simp
  have hcap : (List.replicate ARRAY_MAX_LEN (0 : UInt8)).length = ARRAY_MAX_LEN :=
    List.length_replicate _ _
  have hab8 : (align_buf (List.replicate ARRAY_MAX_LEN (0 : UInt8)) 8).length = ARRAY_MAX_LEN := by
    rw [align_buf_length, hcap, h8]
    omega
  have h := c4_size_cap (marshal_u8 0) (marshal_u8 0) (marshal_u8 0)
      (ArrayBuf.mk ['a', 'y'] (List.replicate ARRAY_MAX_LEN 0))
      (DictBuf.mk ['y'] ['y'] ['a', '{', 'y', 'y', '}'] (List.replicate ARRAY_MAX_LEN 0))
      hext hext hext rfl rfl rfl
  refine ⟨hext, h.1 ?_, h.2.2.1 ?_⟩
  · show ((marshal_u8 0).append_data_to (List.replicate ARRAY_MAX_LEN 0)).length > ARRAY_MAX_LEN
    rw [hu8len _ (by rw [hcap]; norm_num [ARRAY_MAX_LEN]), hcap]
    norm_num
  · show ((marshal_u8 0).append_data_to ((marshal_u8 0).append_data_to
        (align_buf (List.replicate ARRAY_MAX_LEN 0) 8))).length > ARRAY_MAX_LEN
    have l1 : ((marshal_u8 0).append_data_to
        (align_buf (List.replicate ARRAY_MAX_LEN 0) 8)).length = ARRAY_MAX_LEN + 1 := by
      rw [hu8len _ (by rw [hab8]; norm_num [ARRAY_MAX_LEN]), hab8]
    rw [hu8len _ (by rw [l1]; norm_num [ARRAY_MAX_LEN]), l1]
    omega

/-- **C8** counterexample: for the variant `[siglen=1, 'y', NUL, value]` at
    absolute position 0, the source computes a real length of 4 (it also
    counts the NUL terminator after the inner signature), while the spec's
    formula `1 + siglen + padding + inner` gives 3. -/
theorem c8_counterexample :
    Single.get_real_length 3 (Single.mk ['v'] [1, 0x79, 0, 5] 0 false) = .ok 4 ∧
    Single.get_real_length 3 (Single.mk ['v'] [1, 0x79, 0, 5] 0 false) ≠
      .ok (spec_variant_length 0 1 (align_of 'y') 1) := by
  decide

/-- **C8** (amended): for a variant single over data `b :: t` with a valid
    inner signature of length `siglen = b`, the real byte length is
    `(1 + siglen + 1) + padding-to-inner-alignment + inner` — the spec's
    formula plus one for the NUL terminator — where the padding is computed
    from the absolute position `start_pos + siglen + 2`. -/
theorem c8_variant_real_length (f L siglen ds al p : Nat) (b : UInt8)
    (t : List UInt8) (e : Bool) (sigChars : List Char)
    (hsiglen : siglen = b.toNat)
    (hlen : siglen ≤ t.length)
    (hchars : sigChars = (t.take siglen).map (fun x => Char.ofNat x.toNat))
    (hvalid : sigSingleValid sigChars = true)
    (hal : al = align_of (sigChars.headD ' '))
    (hds : ds = align_up (p + siglen + 2) al - p)
    (hdsle : ds ≤ t.length + 1)
    (hnowrap : p + siglen + 2 + 8 ≤ 2 ^ 64)
    (hinner : Single.get_real_length f
        (Single.mk sigChars ((b :: t).drop ds) (p + ds) e) = .ok L) :
    Single.get_real_length (f + 1) (Single.mk ['v'] (b :: t) p e) =
      .ok ((1 + siglen + 1) + (align_up (p + siglen + 2) al - (p + siglen + 2)) + L) := by
  subst hsiglen
  subst hchars
  subst hal
  subst hds
  have hN : (2:Nat) ^ 64 = 18446744073709551616 := by norm_num
  set A := align_of (((t.take b.toNat).map (fun x => Char.ofNat x.toNat)).headD ' ') with hA
  set g := align_up (p + b.toNat + 2) A with hg
  have hal48 := align_of_cases (((t.take b.toNat).map (fun x => Char.ofNat x.toNat)).headD ' ')
  rw [← hA] at hal48
  obtain ⟨hup1, hup2, -, -⟩ := align_up_spec (p + b.toNat + 2) A hal48
      (by rw [hN] at hnowrap ⊢; rcases hal48 with h | h | h | h <;> omega)
  rw [← hg] at hup1 hup2
  have hiv : (Single.mk ['v'] (b :: t) p e).inner_variant =
      .ok (Single.mk ((t.take b.toNat).map (fun x => Char.ofNat x.toNat))
        ((b :: t).drop (g - p)) (p + (g - p)) e) := by
    show Single.inner_variant _ = _
    unfold Single.inner_variant Single.read1
    simp only [List.length_cons, List.drop_succ_cons, List.drop_zero]
    rw [← hA, ← hg]
    rw [if_pos (by omega : b.toNat + 1 ≤ t.length + 1), if_pos hvalid,
        if_pos (by omega : g - p ≤ t.length + 1)]
  unfold Single.get_real_length
  simp only [reduceIte]
  rw [hiv]
  show (match Single.get_real_length f
        (Single.mk ((t.take b.toNat).map (fun x => Char.ofNat x.toNat))
          ((b :: t).drop (g - p)) (p + (g - p)) e) with
      | RRes.ok l => RRes.ok (l + ((b :: t).length - ((b :: t).drop (g - p)).length))
      | RRes.err e2 => RRes.err e2
      | RRes.panic => RRes.panic) = _
  rw [hinner]
  show RRes.ok (L + ((b :: t).length - ((b :: t).drop (g - p)).length)) = _
  simp only [RRes.ok.injEq, List.length_cons, List.length_drop]
  omega

/-- Witness for C8 at a concrete input: variant `[1, 'q', NUL, 0x34, 0x12]`
    (inner alignment 2, one padding byte) has real length
    `3 + 1 + 2 = 6`. -/
theorem c8_witness :
    sigSingleValid ['q'] = true ∧
    Single.get_real_length 3 (Single.mk ['v'] [1, 0x71, 0, 0x34, 0x12] 0 false) =
      .ok ((1 + 1 + 1) + (align_up (0 + 1 + 2) 2 - (0 + 1 + 2)) + 2) := by
  refine ⟨by decide, ?_⟩
  exact c8_variant_real_length 2 2 1 4 2 0 1 [0x71, 0, 0x34, 0x12] false ['q']
    (by decide) (by decide) (by decide) (by decide) (by decide) (by decide)
    (by decide) (by norm_num) (by decide)

/-- **C10** (implicit): parsing `s`/`o` singles reads only the 4-byte length
    prefix and bytes `[4, len+4)`, and `g` singles only the 1-byte length and
    bytes `[1, siglen+1)`; whenever those bytes are present and the payload
    passes the (modelled) validity checks, parsing succeeds — the trailing
    NUL terminator is never read or validated. -/
theorem c10_terminator_not_read (s : Single) :
    (∀ L, s.sig = ['s'] → 4 ≤ s.data.length →
        L = decodeBytes s.is_big_endian (s.data.take 4) → 4 + L ≤ s.data.length →
        s.parse = (if dbusStrValid ((s.data.drop 4).take L)
                   then .ok (.string ((s.data.drop 4).take L))
                   else .err .InvalidString)) ∧
    (∀ L, s.sig = ['o'] → 4 ≤ s.data.length →
        L = decodeBytes s.is_big_endian (s.data.take 4) → 4 + L ≤ s.data.length →
        s.parse = (if objPathValid ((s.data.drop 4).take L)
                   then .ok (.objectPath ((s.data.drop 4).take L))
                   else .err .InvalidString)) ∧
    (∀ b : UInt8, s.sig = ['g'] → s.data.head? = some b → b.toNat + 1 ≤ s.data.length →
        s.parse = (if sigMultiValid (((s.data.drop 1).take b.toNat).map
                        (fun x => Char.ofNat x.toNat))
                   then .ok (.signature (((s.data.drop 1).take b.toNat).map
                        (fun x => Char.ofNat x.toNat)))
                   else .err .InvalidString)) := by
  obtain ⟨sig, data, pos, bige⟩ := s
  refine ⟨?_, ?_, ?_⟩
  · intro L hsig h4 hL hle
    simp only at hsig h4 hL hle ⊢
    subst hsig
    subst hL
    by_cases hvp : dbusStrValid ((data.drop 4).take (decodeBytes bige (data.take 4))) = true
    · simp [Single.parse, Single.read_str, Single.read4, h4, hle, hvp]
    · simp only [Bool.not_eq_true] at hvp
      simp [Single.parse, Single.read_str, Single.read4, h4, hle, hvp]
  · intro L hsig h4 hL hle
    simp only at hsig h4 hL hle ⊢
    subst hsig
    subst hL
    by_cases hvp : objPathValid ((data.drop 4).take (decodeBytes bige (data.take 4))) = true
    · simp [Single.parse, Single.read_str, Single.read4, h4, hle, hvp]
    · simp only [Bool.not_eq_true] at hvp
      simp [Single.parse, Single.read_str, Single.read4, h4, hle, hvp]
  · intro b hsig hb hlen
    simp only at hsig hb hlen ⊢
    subst hsig
    cases data with
    | nil => simp at hb
    | cons x t =>
      simp only [List.head?_cons, Option.some.injEq] at hb
      subst hb
      simp only [List.length_cons] at hlen
      by_cases hvp : sigMultiValid ((t.map (fun c => Char.ofNat c.toNat)).take x.toNat) = true
      · simp [Single.parse, Single.read_sig, Single.read1, hvp,
          (by omega : x.toNat + 1 ≤ t.length + 1)]
      · simp only [Bool.not_eq_true] at hvp
        simp [Single.parse, Single.read_sig, Single.read1, hvp,
          (by omega : x.toNat + 1 ≤ t.length + 1)]

/-- Witness for C10 at concrete inputs with the NUL terminator absent:
    `s` over `[3,0,0,0,'a','b','c']`, `o` over `[1,0,0,0,'/']` and `g` over
    `[1,'i']` all parse successfully. -/
theorem c10_witness :
    (4 + 3 ≤ ([3, 0, 0, 0, 0x61, 0x62, 0x63] : List UInt8).length) ∧
    (Single.mk ['s'] [3, 0, 0, 0, 0x61, 0x62, 0x63] 0 false).parse =
      .ok (.string [0x61, 0x62, 0x63]) ∧
    (Single.mk ['o'] [1, 0, 0, 0, 0x2F] 0 false).parse = .ok (.objectPath [0x2F]) ∧
    (Single.mk ['g'] [1, 0x69] 0 false).parse = .ok (.signature ['i']) := by
  refine ⟨by decide, ?_, ?_, ?_⟩
  · rw [(c10_terminator_not_read (Single.mk ['s'] [3, 0, 0, 0, 0x61, 0x62, 0x63] 0 false)).1
      3 rfl (by decide) (by decide) (by decide)]
    decide
  · rw [(c10_terminator_not_read (Single.mk ['o'] [1, 0, 0, 0, 0x2F] 0 false)).2.1
      1 rfl (by decide) (by decide) (by decide)]
    decide
  · rw [(c10_terminator_not_read (Single.mk ['g'] [1, 0x69] 0 false)).2.2
      1 rfl (by decide) (by decide)]
    decide

end Marshalled
